import Mathlib

/-!
Verification of the path-addressed IPC messaging core (electron-path-ipc).

This file gives a shallow embedding of the core source (src/index.ts):
string normalization and path joining used by the prefixed views, the
prefixed-view delegation chain, the route matcher (modelled from the spec,
since the matcher itself is the external path-to-regexp library), the
handler registry with its dispatch loop, the listener registry, and the
response correlator with its retry budget and timeout, together with
theorems settling the frozen claims about them.
-/

set_option linter.unusedVariables false

/-! ## String utilities

The prefixed view normalizes path segments with the regular expression
`/^\/+|\/+$/g` (strip every leading and trailing separator) and joins
segments with the separator `'/'` (source lines 276-286). -/

/-- stripChars removes the leading run and the trailing run of `'/'`
characters from a character list; this is the effect of
`replace(/^\/+|\/+$/g, '')` on the underlying characters. -/
def stripChars (l : List Char) : List Char :=
  ((l.dropWhile (fun c => c = '/')).reverse.dropWhile (fun c => c = '/')).reverse

/-- stripSlashes is `s.replace(this.regex, '')` with
`regex = /^\/+|\/+$/g` (source lines 277, 280, 285, 334). -/
def stripSlashes (s : String) : String :=
  ⟨stripChars s.data⟩

/-- jsStartsWith models the JavaScript `String.prototype.startsWith`
used at source lines 333 and 354: a code-point prefix test. -/
def jsStartsWith (s pre : String) : Bool :=
  pre.data.isPrefixOf s.data

/-- jsSlice models the JavaScript `s.slice(k)` used at source
lines 334 and 355: drop the first `k` characters. -/
def jsSlice (s : String) (k : Nat) : String :=
  ⟨s.data.drop k⟩

/-- joinList models `Array.prototype.join(sep)`. -/
def joinList (sep : String) : List String → String
  | [] => ""
  | [x] => x
  | x :: y :: rest => x ++ sep ++ joinList sep (y :: rest)

/-- joinParts is `PrefixedIpcCore.join` (source lines 283-286): when the
stored prefix is nonempty (JavaScript truthiness of a string) it is put in
front, every part is normalized with stripSlashes, and the parts are
joined with the separator `'/'`. -/
def joinParts (prefixPath : String) (parts : List String) : String :=
  joinList "/" ((if prefixPath = "" then parts else prefixPath :: parts).map stripSlashes)

/-! ## Prefixed views

`PrefixedIpcCore` (source lines 275-374) stores a parent `Ipc` (which may
itself be a prefixed view) and its own normalized segment
`prefixPath = prefixPath.replace(regex, '')` (line 280). Its `prefix`
method (lines 288-290) builds `new PrefixedIpcCore(this, prefix)`, and the
root dispatcher `IpcCore.prefix` (lines 232-234) builds
`new PrefixedIpcCore(this, prefix)` over the root. Every path-taking
operation delegates as `this.parent.op(this.join(path), ...)`. -/

/-- PrefView is the delegation chain of a prefixed view: `root` is the
underlying root dispatcher, `node parent prefixPath` is a
`PrefixedIpcCore` whose stored parent is `parent` and whose stored
normalized segment is `prefixPath`. -/
inductive PrefView where
  | root : PrefView
  | node (parent : PrefView) (prefixPath : String) : PrefView
deriving DecidableEq

/-- prefixView is `prefix(prefix: string)` (source lines 232-234 and
288-290): it constructs a new view whose stored parent is the receiver
itself and whose segment is normalized by the constructor (line 280). -/
def PrefView.prefixView (v : PrefView) (raw : String) : PrefView :=
  .node v (stripSlashes raw)

/-- parentView returns the dispatcher a view delegates its operations to
(the constructor argument `parent`, source line 279). -/
def PrefView.parentView : PrefView → Option PrefView
  | .root => none
  | .node p _ => some p

/-- hops counts the delegation steps from a view down to the root
dispatcher: every operation on `node p s` calls the same operation on
`p` (source lines 292-373), so a chain of nested views is traversed one
hop per nesting level. -/
def PrefView.hops : PrefView → Nat
  | .root => 0
  | .node p _ => p.hops + 1

/-- resolve computes the path string that finally reaches the root
dispatcher when an operation is called with `path` on a view: each level
applies its own `join` and passes the result to its parent (source
lines 296-298, 337-339, 347-349). -/
def PrefView.resolve : PrefView → String → String
  | .root, q => q
  | .node p pp, q => p.resolve (joinParts pp [q])

/-! ## Route matcher

Modelled from the spec: the matcher itself is the external path-to-regexp
library (imported at source line 3, used via `pathToRegexp` and `match` at
lines 77, 88, 134, 182); only its call sites are in the repository. Spec
section 4.1: a route-pattern string consists of literal segments, named
parameters `:name`, and optional parameters `:name?`; `test` checks a
candidate path and `extract` yields a mapping from parameter names to
strings, where optional parameters absent from the path are omitted from
the mapping. -/

/-- Seg is one compiled segment of a route pattern: a literal, a named
parameter, or an optional named parameter. -/
inductive Seg where
  | lit (s : String) : Seg
  | par (name : String) : Seg
  | opt (name : String) : Seg
deriving DecidableEq

/-- splitChars splits a character list at every `'/'`, keeping empty
pieces, like the JavaScript `split('/')`. -/
def splitChars : List Char → List (List Char)
  | [] => [[]]
  | c :: rest =>
    match splitChars rest with
    | [] => [[c]]
    | h :: t => if c = '/' then [] :: h :: t else (c :: h) :: t

/-- splitSlash splits a string into its `'/'`-separated segments. -/
def splitSlash (s : String) : List String :=
  (splitChars s.data).map (fun l => ⟨l⟩)

/-- parseSeg compiles one pattern segment: `:name?` becomes an optional
parameter, `:name` a named parameter, anything else a literal. -/
def parseSeg (s : String) : Seg :=
  match s.data with
  | ':' :: rest =>
    if rest.getLast? = some '?' then .opt ⟨rest.dropLast⟩ else .par ⟨rest⟩
  | _ => .lit s

/-- compilePat compiles a route-pattern string into its segments
(modelled from spec section 4.1). -/
def compilePat (pat : String) : List Seg :=
  (splitSlash pat).map parseSeg

/-- segsMatch matches compiled pattern segments against path segments,
returning the extracted parameter mapping on success. An optional
parameter either consumes one path segment (bound in the mapping) or is
skipped (omitted from the mapping, not bound to an empty string). -/
def segsMatch : List Seg → List String → Option (List (String × String))
  | [], [] => some []
  | [], _ :: _ => none
  | .lit s :: ps, x :: xs => if x = s then segsMatch ps xs else none
  | .lit _ :: _, [] => none
  | .par n :: ps, x :: xs => (segsMatch ps xs).map (fun r => (n, x) :: r)
  | .par _ :: _, [] => none
  | .opt _ :: ps, [] => segsMatch ps []
  | .opt n :: ps, x :: xs =>
    match segsMatch ps xs with
    | some r => some ((n, x) :: r)
    | none => segsMatch ps (x :: xs)

/-- patMatch is `match(eventName)(path)` (source lines 77, 88): the
parameter mapping extracted when `path` matches the pattern, or `none`. -/
def patMatch (pat path : String) : Option (List (String × String)) :=
  segsMatch (compilePat pat) (splitSlash path)

/-- patTest is `regexp.test(path)` for the compiled pattern (source
lines 76, 87): whether the path matches. -/
def patTest (pat path : String) : Bool :=
  (patMatch pat path).isSome

/-! ## Values, envelopes and error messages -/

/-- JsVal is an opaque JavaScript value as carried in envelope argument
lists: a string, a number, an Error instance (carrying its message), or
undefined. The distinguished Error case is what `args[0] instanceof
Error` (source line 228) inspects. -/
inductive JsVal where
  | str (s : String) : JsVal
  | num (n : Int) : JsVal
  | errV (msg : String) : JsVal
  | undef : JsVal
deriving DecidableEq

/-- isError is the `instanceof Error` test of source line 228. -/
def JsVal.isError : JsVal → Bool
  | .errV _ => true
  | _ => false

/-- RespEnvelope is the response envelope produced by `respond` (source
lines 225-230): the path it is sent under, the correlation id `resId`
referencing the original request, the optional error header, and the
remaining payload arguments. -/
structure RespEnvelope where
  path : String
  resId : String
  error : Option String
  args : List JsVal
deriving DecidableEq

/-- noHandlerMsg is the error message of source line 96. -/
def noHandlerMsg (path : String) : String :=
  "No handler found for '" ++ path ++ "'"

/-- timeoutMsg is the error message of source line 107. -/
def timeoutMsg (reqId : String) : String :=
  "Timeout for response with reqId '" ++ reqId ++ "'"

/-- dupHandlerMsg is the error message of source line 181. -/
def dupHandlerMsg (path : String) : String :=
  "Attempted to register a second handler for '" ++ path ++ "'"

/-- respond is `IpcCore.respond` (source lines 225-230): if the first
extra argument is an Error instance it is shifted out and becomes the
error header, otherwise the error header is absent; the envelope carries
`resId = reqId` and the remaining arguments. -/
def respond (reqId path : String) (args : List JsVal) : RespEnvelope :=
  match args with
  | .errV m :: rest => ⟨path, reqId, some m, rest⟩
  | _ => ⟨path, reqId, none, args⟩

/-! ## Response correlator

`IpcCore.onResponse` (source lines 103-120) creates a promise with a
deadline timer and a retry counter `nbTry = this.maxTry`; the listener on
the response channel resolves on the first error-free response (binding
only the first payload argument), decrements `nbTry` on an error response
and rejects once it is not positive; the timer rejects with a timeout
error; a `finally` clause removes the channel listener and cancels the
timer. A settled promise ignores every later resolve or reject, so settled
states are absorbing. -/

/-- CorrStatus is the state of one pending invoke: still pending with the
remaining retry budget, resolved with a value, or rejected with an error
message. -/
inductive CorrStatus where
  | pending (nbTry : Int) : CorrStatus
  | resolved (v : JsVal) : CorrStatus
  | rejected (err : String) : CorrStatus
deriving DecidableEq

/-- CorrEvent is one event observed by a pending invoke: a response on
its channel (error header and payload arguments), or the deadline timer
firing. -/
inductive CorrEvent where
  | response (error : Option String) (args : List JsVal) : CorrEvent
  | timerFire : CorrEvent
deriving DecidableEq

/-- corrStep is one step of the correlator (source lines 106-115): an
error-free response resolves with the first payload argument (the
listener signature `(header, args)` binds a single argument, line 110);
an error response pre-decrements `nbTry` and rejects with the error when
the result is not positive, otherwise keeps waiting; the timer rejects
with the timeout message; settled states absorb every event (promise
semantics, and the `finally` of lines 116-119 has removed the listener
and cancelled the timer). -/
def corrStep (reqId : String) : CorrStatus → CorrEvent → CorrStatus
  | .pending _, .response none args => .resolved (args.headD .undef)
  | .pending n, .response (some e) _ =>
    if n - 1 ≤ 0 then .rejected e else .pending (n - 1)
  | .pending _, .timerFire => .rejected (timeoutMsg reqId)
  | s, _ => s

/-- corrRun folds a sequence of events through the correlator. -/
def corrRun (reqId : String) (init : CorrStatus) (evs : List CorrEvent) : CorrStatus :=
  evs.foldl (corrStep reqId) init

/-- invokePending is the state created when `invoke` starts waiting
(source line 109): pending with retry budget `maxTry`. -/
def invokePending (maxTry : Int) : CorrStatus :=
  .pending maxTry

/-- maxTry of the base class `IpcCore` (source lines 65-67), inherited
unchanged by the renderer (spoke) dispatcher `IpcCoreRenderer`. -/
def IpcCore.maxTry : Int := 1

/-- maxTry of the main (hub) dispatcher `IpcCoreMain` (source
lines 246-248): the current number of browser windows. -/
def IpcCoreMain.maxTry (windows : List Unit) : Int :=
  windows.length

/-- onResponseDefaultTimeout is the default deadline of `onResponse`
(source line 103, `opts = {timeout: 10000}`), in milliseconds. -/
def onResponseDefaultTimeout : Nat := 10000

/-- entryActive tells whether the pending entry still exists: once the
promise settles, the `finally` of source lines 116-119 removes the
response listeners for the reqId and cancels the deadline timer. -/
def entryActive : CorrStatus → Bool
  | .pending _ => true
  | _ => false

/-- onResponseEmit routes an inbound response envelope to a pending
invoke: `onRequest` emits on the channel named by `headers.resId`
(source lines 98-100), and the invoke listens on the channel named by
its own reqId (line 110), so the envelope reaches the pending entry
exactly when the two are equal. -/
def onResponseEmit (pendingReqId : String) (st : CorrStatus) (env : RespEnvelope) : CorrStatus :=
  if env.resId = pendingReqId then
    corrStep pendingReqId st (.response env.error env.args)
  else st

/-! ## Handler registry and dispatch

`IpcCore` keeps `handlerList` (pattern to compiled regexp and handler,
source line 61) and a private emitter `handlerEvent` (line 62) carrying,
for every registered pattern, the one listener installed by `handle`
(lines 183-190) that runs the handler and responds. `handle` keeps the
two in sync, so they are merged into a single entry list here.
`handleOnce` (lines 194-199) registers through `handle` a wrapper that
first removes the registration and then calls through to the handler;
the entry records this with the isOnce flag. -/

/-- HEntry is one handler registration: the pattern string, whether it
was registered through `handleOnce`, and the handler function taking the
extracted params and the request arguments, returning a value or
throwing an error message. -/
structure HEntry where
  pattern : String
  isOnce : Bool
  fn : List (String × String) → List JsVal → Except String JsVal

/-- HandlerState is the handler registry of one dispatcher. -/
structure HandlerState where
  handlers : List HEntry

/-- removeHandler with a path argument (source lines 210-213): deletes
the registration stored under exactly that pattern string. -/
def removeHandler (st : HandlerState) (p : String) : HandlerState :=
  ⟨st.handlers.filter (fun e => e.pattern != p)⟩

/-- handleCore is `IpcCore.handle` (source lines 180-192): it throws the
duplicate-handler error when the pattern is already registered, leaving
the registry untouched, and otherwise appends the registration. The
isOnce flag records whether the registered listener is the `handleOnce`
wrapper of lines 194-199. The returned option is the thrown error. -/
def handleCore (st : HandlerState) (p : String) (isOnce : Bool)
    (fn : List (String × String) → List JsVal → Except String JsVal) :
    HandlerState × Option String :=
  if st.handlers.any (fun e => e.pattern = p) then
    (st, some (dupHandlerMsg p))
  else
    (⟨st.handlers ++ [⟨p, isOnce, fn⟩]⟩, none)

/-- handle is `IpcCore.handle` (source lines 180-192). -/
def handle (st : HandlerState) (p : String)
    (fn : List (String × String) → List JsVal → Except String JsVal) :
    HandlerState × Option String :=
  handleCore st p false fn

/-- handleOnce is `IpcCore.handleOnce` (source lines 194-199): it
registers through `handle` a wrapper that removes itself before calling
through to the handler. -/
def handleOnce (st : HandlerState) (p : String)
    (fn : List (String × String) → List JsVal → Except String JsVal) :
    HandlerState × Option String :=
  handleCore st p true fn

/-- runHEntry runs the listener installed by `handle` for one matching
entry (source lines 183-190): for a `handleOnce` wrapper the
registration is removed first (line 196), before the handler is called;
a returned value is sent back with `respond(reqId, path, response)`
(line 186) and a thrown error as `respond(reqId, path, new
Error(message))` (line 188), both under the registration pattern. -/
def runHEntry (st : HandlerState) (e : HEntry) (reqId : String)
    (params : List (String × String)) (args : List JsVal) :
    HandlerState × RespEnvelope :=
  let st1 := if e.isOnce then removeHandler st e.pattern else st
  match e.fn params args with
  | .ok v => (st1, respond reqId e.pattern [v])
  | .error m => (st1, respond reqId e.pattern [.errV m])

/-- dispatchHandlers is the handler branch of `IpcCore.onRequest`
(source lines 83-97) for a handler-bound request: iterate a snapshot of
the registrations; every entry whose pattern matches the path has its
listener run with the extracted params (producing one response
envelope); when no entry matched, send back one response envelope whose
error is the no-handler message for the path (line 96). Returns the
final registry and the emitted response envelopes. dispatchStep is the
body of the iteration for one registration entry. -/
def dispatchStep (path reqId : String) (args : List JsVal)
    (acc : HandlerState × List RespEnvelope × Bool) (e : HEntry) :
    HandlerState × List RespEnvelope × Bool :=
  match patMatch e.pattern path with
  | some ps =>
    let s := runHEntry acc.1 e reqId ps args
    (s.1, acc.2.1 ++ [s.2], true)
  | none => acc

/-- dispatchHandlers folds dispatchStep over the registration snapshot
and, when nothing matched, appends the no-handler response. -/
def dispatchHandlers (st : HandlerState) (path reqId : String) (args : List JsVal) :
    HandlerState × List RespEnvelope :=
  let r := st.handlers.foldl (dispatchStep path reqId args) (st, [], false)
  if r.2.2 then (r.1, r.2.1)
  else (r.1, r.2.1 ++ [respond reqId path [.errV (noHandlerMsg path)]])

/-! ## Listener registry

`IpcCore` keeps `eventList` (pattern to compiled regexp and listener
array, source line 60) next to the inherited Node `EventEmitter`
listener table. `on` (lines 132-138) both records the pattern in
`eventList` and registers on the emitter; `once` (lines 144-147) only
calls `super.once`, registering on the emitter without touching
`eventList`. Inbound dispatch (lines 74-81) walks `eventList` and emits
on the emitter for every pattern whose regexp matches the path.
Listeners are identified here by a numeric id. -/

/-- EvEntry is one `eventList` entry: the pattern string and the ids of
the listeners pushed into its array. -/
structure EvEntry where
  pattern : String
  listeners : List Nat
deriving DecidableEq

/-- ListState is the listener registry of one dispatcher: the `eventList`
map and the inherited emitter table of (channel name, listener id,
registered-via-once) triples. -/
structure ListState where
  eventList : List EvEntry
  emitter : List (String × Nat × Bool)
deriving DecidableEq

/-- ipcOn is `IpcCore.on` (source lines 132-138): push the listener into
the existing `eventList` entry for the pattern, or create the entry with
the compiled pattern; then register on the emitter via `super.on`. -/
def ipcOn (st : ListState) (p : String) (id : Nat) : ListState :=
  let el :=
    if st.eventList.any (fun e => e.pattern = p) then
      st.eventList.map (fun e =>
        if e.pattern = p then ⟨e.pattern, e.listeners ++ [id]⟩ else e)
    else st.eventList ++ [⟨p, [id]⟩]
  ⟨el, st.emitter ++ [(p, id, false)]⟩

/-- ipcOnce is `IpcCore.once` (source lines 144-147): only
`super.once(path, listener)` on the emitter; `eventList` is not
touched. -/
def ipcOnce (st : ListState) (p : String) (id : Nat) : ListState :=
  ⟨st.eventList, st.emitter ++ [(p, id, true)]⟩

/-- emitFired is the emitter firing a channel name: the ids of the
listeners registered under exactly that name, in order. -/
def emitFired (st : ListState) (name : String) : List Nat :=
  (st.emitter.filter (fun t => t.1 = name)).map (fun t => t.2.1)

/-- onRequestFired is the listener branch of `IpcCore.onRequest` (source
lines 74-81): for every `eventList` pattern whose compiled regexp
matches the inbound path, emit on that pattern name; the result lists
every listener id invoked for the envelope, in order. -/
def onRequestFired (st : ListState) (path : String) : List Nat :=
  ((st.eventList.filter (fun e => patTest e.pattern path)).map
    (fun e => emitFired st e.pattern)).flatten

/-! ## Prefixed view bulk removal

`PrefixedIpcCore.eventNames` (source lines 330-335) filters the parent
names by `startsWith(this.prefixPath)` and strips the prefix length and
surrounding separators; `handlerNames` (lines 351-356) is identical for
handlers. `removeAllListeners()` with no argument (lines 315-322)
iterates the visible names and calls itself with each name, which for a
truthy name delegates `parent.removeAllListeners(this.join(name))`;
`removeHandler()` (lines 358-365) does the same for handlers, and
`removeAll` (lines 324-328) calls both. The name-set effect on the root
registry is modelled here once, over a list of registered root names. -/

/-- rootRemoveName is the root-side removal of one exact name:
`eventList.delete(path)` (source line 161) or `handlerList.delete(path)`
(line 212). -/
def rootRemoveName (names : List String) (p : String) : List String :=
  names.filter (fun n => n != p)

/-- viewVisibleNames is `PrefixedIpcCore.eventNames` (source
lines 330-335) and equally `handlerNames` (lines 351-356): keep the
parent names that start with the stored prefix, drop the prefix length
from each, and strip surrounding separators. -/
def viewVisibleNames (prefixPath : String) (names : List String) : List String :=
  (names.filter (fun n => jsStartsWith n prefixPath)).map
    (fun n => stripSlashes (jsSlice n prefixPath.length))

/-- viewRemoveAllNames is the name-set effect of the no-argument
`removeAllListeners()` of `PrefixedIpcCore` (source lines 315-322), and
equally of `removeHandler()` (lines 358-365): snapshot the visible
names, then remove each one through `join`. A visible name that strips
to the empty string makes the recursion at line 319 call itself with a
falsy path forever (the empty string is never removed by the inner
calls), so no result is produced; this is modelled as `none`. -/
def viewRemoveAllNames (prefixPath : String) (names : List String) : Option (List String) :=
  let snapshot := viewVisibleNames prefixPath names
  if snapshot.contains "" then none
  else some (snapshot.foldl (fun acc e => rootRemoveName acc (joinParts prefixPath [e])) names)

/-! ## Helper lemmas -/

/-- dropWhile of the separator leaves a list whose head is not the
separator unchanged. -/
lemma dropWhile_slash_eq_self (l : List Char) (h : l.head? ≠ some '/') :
    l.dropWhile (fun c => c = '/') = l := by
  cases l with
  | nil => rfl
  | cons a t =>
    have ha : a ≠ '/' := by
      intro hc
      exact h (by simp [hc])
    simp [List.dropWhile_cons, ha]

/-- stripChars leaves a list unchanged when neither end is the
separator. -/
lemma stripChars_eq_self (l : List Char) (h1 : l.head? ≠ some '/')
    (h2 : l.getLast? ≠ some '/') : stripChars l = l := by
  unfold stripChars
  rw [dropWhile_slash_eq_self l h1]
  rw [dropWhile_slash_eq_self l.reverse (by rw [List.head?_reverse]; exact h2)]
  exact List.reverse_reverse l

/-- stripSlashes leaves a string unchanged when it neither starts nor
ends with the separator. -/
lemma stripSlashes_eq_self (s : String) (h1 : s.data.head? ≠ some '/')
    (h2 : s.data.getLast? ≠ some '/') : stripSlashes s = s := by
  apply String.ext
  show stripChars s.data = s.data
  exact stripChars_eq_self s.data h1 h2

/-- data of a nonempty string is a nonempty character list. -/
lemma data_ne_nil_of_ne_empty (s : String) (h : s ≠ "") : s.data ≠ [] := by
  intro hc
  exact h (String.ext hc)

/-- joinParts with a nonempty normalized prefix and a single part is the
prefix, the separator, and the normalized part. -/
lemma joinParts_single (pp q : String) (hpp : pp ≠ "")
    (h1 : pp.data.head? ≠ some '/') (h2 : pp.data.getLast? ≠ some '/') :
    joinParts pp [q] = pp ++ "/" ++ stripSlashes q := by
  unfold joinParts
  rw [if_neg hpp]
  show joinList "/" [stripSlashes pp, stripSlashes q] = pp ++ "/" ++ stripSlashes q
  rw [stripSlashes_eq_self pp h1 h2]
  rfl

/-- a concatenation around a separator is already normalized when the
left part is nonempty and does not start with the separator and the
right part is nonempty and does not end with it. -/
lemma stripSlashes_sep_concat (a b : String) (ha : a ≠ "") (hb : b ≠ "")
    (h1 : a.data.head? ≠ some '/') (h2 : b.data.getLast? ≠ some '/') :
    stripSlashes (a ++ "/" ++ b) = a ++ "/" ++ b := by
  apply stripSlashes_eq_self
  · rw [String.data_append, String.data_append]
    rw [List.append_assoc]
    rw [List.head?_append_of_ne_nil a.data (data_ne_nil_of_ne_empty a ha)]
    exact h1
  · rw [String.data_append]
    rw [List.getLast?_append_of_ne_nil _ (data_ne_nil_of_ne_empty b hb)]
    exact h2

/-! ## C1: nesting of prefixed views -/

/-- C1 counterexample: the claim says `d.prefix(p1).prefix(p2)` delegates
every operation ultimately to the root dispatcher `d`, never to the
intermediate view, with one hop of real indirection regardless of
nesting depth, the effective prefix being computed once at construction.
On the code, `PrefixedIpcCore.prefix` (source line 289) passes `this` as
the parent, so the nested view for prefixes "a" then "b" stores the
intermediate view as its delegate, which is not the root, and the
delegation chain to the root has two hops, not one. -/
theorem nested_view_forwards_to_intermediate :
    ((PrefView.root.prefixView "a").prefixView "b").parentView
      = some (PrefView.root.prefixView "a")
    ∧ PrefView.root.prefixView "a" ≠ PrefView.root
    ∧ PrefView.hops ((PrefView.root.prefixView "a").prefixView "b") = 2 := by
  refine ⟨rfl, ?_, rfl⟩
  decide

/-- C1 amended: for segments p1, p2 and a path q, all nonempty and none
starting or ending with the separator, the nested view
`d.prefix(p1).prefix(p2)` resolves every operation on path q to
`p1 ++ "/" ++ p2 ++ "/" ++ q` under the root dispatcher — the effective
prefix is p1, separator, p2 — but the view stores and delegates to the
intermediate view `d.prefix(p1)`, one hop per nesting level, the
combined prefix being recomputed by walking the chain on every call
rather than stored at construction. -/
theorem nested_view_effective_prefix (p1 p2 q : String)
    (hp1 : p1 ≠ "") (hp2 : p2 ≠ "") (hq : q ≠ "")
    (h1 : p1.data.head? ≠ some '/') (h2 : p1.data.getLast? ≠ some '/')
    (h3 : p2.data.head? ≠ some '/') (h4 : p2.data.getLast? ≠ some '/')
    (h5 : q.data.head? ≠ some '/') (h6 : q.data.getLast? ≠ some '/') :
    ((PrefView.root.prefixView p1).prefixView p2).resolve q
      = p1 ++ "/" ++ p2 ++ "/" ++ q
    ∧ ((PrefView.root.prefixView p1).prefixView p2).parentView
      = some (PrefView.root.prefixView p1)
    ∧ PrefView.hops ((PrefView.root.prefixView p1).prefixView p2) = 2 := by
  refine ⟨?_, rfl, rfl⟩
  show (PrefView.node (PrefView.node PrefView.root (stripSlashes p1)) (stripSlashes p2)).resolve q
      = p1 ++ "/" ++ p2 ++ "/" ++ q
  rw [stripSlashes_eq_self p1 h1 h2, stripSlashes_eq_self p2 h3 h4]
  show joinParts p1 [joinParts p2 [q]] = p1 ++ "/" ++ p2 ++ "/" ++ q
  rw [joinParts_single p2 q hp2 h3 h4, stripSlashes_eq_self q h5 h6]
  rw [joinParts_single p1 (p2 ++ "/" ++ q) hp1 h1 h2]
  rw [stripSlashes_sep_concat p2 q hp2 hq h3 h6]
  simp [String.append_assoc]

/-- C1 amended witness: the nested view for prefixes "a" then "b"
resolves path "c" to "a/b/c", delegates to the intermediate view, and
sits two hops from the root. -/
theorem nested_view_effective_prefix_witness :
    ((PrefView.root.prefixView "a").prefixView "b").resolve "c" = "a/b/c"
    ∧ ((PrefView.root.prefixView "a").prefixView "b").parentView
      = some (PrefView.root.prefixView "a")
    ∧ PrefView.hops ((PrefView.root.prefixView "a").prefixView "b") = 2 :=
  nested_view_effective_prefix "a" "b" "c" (by decide) (by decide) (by decide)
    (by decide) (by decide) (by decide) (by decide) (by decide) (by decide)

/-! ## C2: retry budget of the response correlator -/

/-- C2: a response whose resId equals the pending reqId and carries no
error resolves the invoke immediately (the entry is then inactive); a
response carrying an error rejects with that error exactly when the
budget reaches zero (initial budget 1: first error rejects; budget above
1: the invoke keeps waiting with the budget decremented); the initial
budget is `maxTry`, which is 1 on the renderer (spoke) dispatcher and
the current number of browser windows on the main (hub) dispatcher. -/
theorem response_retry_budget (r p e : String) (n : Int)
    (args brgs : List JsVal) (h : 1 ≤ n) :
    onResponseEmit r (invokePending n) ⟨p, r, none, args⟩
      = .resolved (args.headD .undef)
    ∧ entryActive (CorrStatus.resolved (args.headD .undef)) = false
    ∧ (n = 1 → onResponseEmit r (invokePending n) ⟨p, r, some e, brgs⟩
        = .rejected e)
    ∧ (1 < n → onResponseEmit r (invokePending n) ⟨p, r, some e, brgs⟩
        = .pending (n - 1))
    ∧ IpcCore.maxTry = 1
    ∧ (∀ ws : List Unit, IpcCoreMain.maxTry ws = ws.length) := by
  refine ⟨?_, rfl, ?_, ?_, rfl, fun ws => rfl⟩
  · simp [onResponseEmit, invokePending, corrStep]
  · intro hn
    subst hn
    simp [onResponseEmit, invokePending, corrStep]
  · intro hn
    have hcond : ¬ (n - 1 ≤ 0) := by omega
    simp [onResponseEmit, invokePending, corrStep, hcond]

/-- C2 witness: with budget 1 (the renderer value), an error-free
response resolves and a single error response rejects. -/
theorem response_retry_budget_witness :
    (1 : Int) ≤ 1
    ∧ (onResponseEmit "r" (invokePending 1) ⟨"p", "r", none, [JsVal.str "v"]⟩
        = .resolved (JsVal.str "v")
      ∧ entryActive (CorrStatus.resolved (([JsVal.str "v"]).headD .undef)) = false
      ∧ ((1 : Int) = 1 → onResponseEmit "r" (invokePending 1) ⟨"p", "r", some "boom", []⟩
          = .rejected "boom")
      ∧ ((1 : Int) < 1 → onResponseEmit "r" (invokePending 1) ⟨"p", "r", some "boom", []⟩
          = .pending 0)
      ∧ IpcCore.maxTry = 1
      ∧ (∀ ws : List Unit, IpcCoreMain.maxTry ws = ws.length)) :=
  ⟨by norm_num, response_retry_budget "r" "p" "boom" 1 [JsVal.str "v"] [] (by norm_num)⟩

/-! ## C9: only the first response argument is delivered -/

/-- C9: an invoke answered by a non-error response envelope carrying
arguments a, rest... resolves to a only: respond emits every argument
into the envelope, but the correlator listener of source line 110 binds
a single payload parameter, so everything after the first argument is
dropped. -/
theorem invoke_resolves_first_arg_only (r p : String) (n : Int)
    (a : JsVal) (rest : List JsVal) (h1 : 1 ≤ n) (h2 : a.isError = false) :
    (respond r p (a :: rest)).error = none
    ∧ (respond r p (a :: rest)).args = a :: rest
    ∧ onResponseEmit r (invokePending n) (respond r p (a :: rest))
      = .resolved a := by
  cases a <;> simp_all [respond, onResponseEmit, invokePending, corrStep, JsVal.isError]

/-- C9 witness: a response carrying three arguments resolves the invoke
to the first one. -/
theorem invoke_resolves_first_arg_only_witness :
    (1 : Int) ≤ 1
    ∧ JsVal.isError (.str "first") = false
    ∧ ((respond "r" "p" [.str "first", .str "second", .num 3]).error = none
      ∧ (respond "r" "p" [.str "first", .str "second", .num 3]).args
        = [.str "first", .str "second", .num 3]
      ∧ onResponseEmit "r" (invokePending 1)
          (respond "r" "p" [.str "first", .str "second", .num 3])
        = .resolved (.str "first")) :=
  ⟨by norm_num, rfl,
    invoke_resolves_first_arg_only "r" "p" 1 (.str "first")
      [.str "second", .num 3] (by norm_num) rfl⟩

/-! ## C6: timeout of a pending invoke -/

/-- corrRun over a sequence of pure error responses, fewer than the
budget, leaves the invoke pending with the budget decremented once per
error. -/
lemma corrRun_error_responses (r : String) :
    ∀ (evs : List CorrEvent) (n : Int),
      (∀ ev ∈ evs, ∃ e a, ev = CorrEvent.response (some e) a) →
      (evs.length : Int) < n →
      corrRun r (.pending n) evs = .pending (n - evs.length) := by
  intro evs
  induction evs with
  | nil =>
    intro n _ _
    simp [corrRun]
  | cons ev rest ih =>
    intro n hall hlen
    obtain ⟨e, a, rfl⟩ := hall _ (List.mem_cons_self _ _)
    have hcond : ¬ (n - 1 ≤ 0) := by
      simp only [List.length_cons] at hlen
      push_cast at hlen
      omega
    show corrRun r (corrStep r (.pending n) (.response (some e) a)) rest
      = .pending (n - (rest.length + 1))
    rw [show corrStep r (.pending n) (.response (some e) a) = .pending (n - 1) by
      simp [corrStep, hcond]]
    rw [ih (n - 1) (fun x hx => hall x (List.mem_cons_of_mem _ hx))
      (by simp only [List.length_cons] at hlen; push_cast at hlen ⊢; omega)]
    congr 1
    omega

/-- settled promise states absorb every further event: the promise
cannot settle twice, and the `finally` of source lines 116-119 has
removed the response listener and cancelled the timer. -/
lemma corrStep_settled (r : String) (s : CorrStatus) (ev : CorrEvent)
    (h : entryActive s = false) : corrStep r s ev = s := by
  cases s with
  | pending n => simp [entryActive] at h
  | resolved v =>
    cases ev with
    | response err a => cases err <;> rfl
    | timerFire => rfl
  | rejected e =>
    cases ev with
    | response err a => cases err <;> rfl
    | timerFire => rfl

/-- corrRun from a settled state stays there whatever arrives. -/
lemma corrRun_settled (r : String) (s : CorrStatus) (h : entryActive s = false) :
    ∀ evs, corrRun r s evs = s := by
  intro evs
  induction evs with
  | nil => rfl
  | cons ev rest ih =>
    show corrRun r (corrStep r s ev) rest = s
    rw [corrStep_settled r s ev h]
    exact ih

/-- C6: an invoke that sees no resolving response before the deadline
(here: only error responses, fewer than the budget) is still pending
when the deadline timer fires — it is not rejected earlier — and the
timer event rejects it with the timeout error naming the reqId; the
settled state is inactive (listener removed, timer cancelled) and
absorbs every later event, so no resolution or rejection takes
observable effect after the timer has rejected; the default deadline is
10000 milliseconds. -/
theorem invoke_timeout_at_deadline (r : String) (n : Int) (evs : List CorrEvent)
    (hall : ∀ ev ∈ evs, ∃ e a, ev = CorrEvent.response (some e) a)
    (hlen : (evs.length : Int) < n) :
    corrRun r (invokePending n) evs = .pending (n - evs.length)
    ∧ corrRun r (invokePending n) (evs ++ [.timerFire])
      = .rejected (timeoutMsg r)
    ∧ (∀ evs2, corrRun r (.rejected (timeoutMsg r)) evs2
        = .rejected (timeoutMsg r))
    ∧ entryActive (CorrStatus.rejected (timeoutMsg r)) = false
    ∧ onResponseDefaultTimeout = 10000 := by
  refine ⟨corrRun_error_responses r evs n hall hlen, ?_, ?_, rfl, rfl⟩
  · show (evs ++ [CorrEvent.timerFire]).foldl (corrStep r) (invokePending n)
      = .rejected (timeoutMsg r)
    rw [List.foldl_append]
    rw [show evs.foldl (corrStep r) (invokePending n) = .pending (n - evs.length) from
      corrRun_error_responses r evs n hall hlen]
    rfl
  · exact corrRun_settled r _ rfl

/-- C6 witness: with budget 1 and no response at all, the invoke is
still pending at the deadline and the timer rejects it with the timeout
message naming the reqId. -/
theorem invoke_timeout_at_deadline_witness :
    (([] : List CorrEvent).length : Int) < 1
    ∧ (corrRun "r" (invokePending 1) [] = .pending (1 - ([] : List CorrEvent).length)
      ∧ corrRun "r" (invokePending 1) ([] ++ [.timerFire])
        = .rejected (timeoutMsg "r")
      ∧ (∀ evs2, corrRun "r" (.rejected (timeoutMsg "r")) evs2
          = .rejected (timeoutMsg "r"))
      ∧ entryActive (CorrStatus.rejected (timeoutMsg "r")) = false
      ∧ onResponseDefaultTimeout = 10000) :=
  ⟨by norm_num,
    invoke_timeout_at_deadline "r" 1 [] (by simp) (by norm_num)⟩

/-! ## Dispatch lemmas -/

/-- folding dispatchStep over entries none of which matches the path
leaves the accumulator unchanged. -/
lemma foldl_dispatchStep_skip (path reqId : String) (args : List JsVal) :
    ∀ (l : List HEntry) (acc : HandlerState × List RespEnvelope × Bool),
      (∀ e ∈ l, patMatch e.pattern path = none) →
      l.foldl (dispatchStep path reqId args) acc = acc := by
  intro l
  induction l with
  | nil => intro acc _; rfl
  | cons e rest ih =>
    intro acc hall
    show rest.foldl (dispatchStep path reqId args) (dispatchStep path reqId args acc e) = acc
    rw [show dispatchStep path reqId args acc e = acc by
      simp [dispatchStep, hall e (List.mem_cons_self _ _)]]
    exact ih acc (fun x hx => hall x (List.mem_cons_of_mem _ hx))

/-- dispatch of a path no registered pattern matches produces exactly
the single no-handler error response and leaves the registry
unchanged. -/
lemma dispatchHandlers_no_match (st : HandlerState) (path reqId : String)
    (args : List JsVal) (h : ∀ e ∈ st.handlers, patMatch e.pattern path = none) :
    dispatchHandlers st path reqId args
      = (st, [respond reqId path [.errV (noHandlerMsg path)]]) := by
  unfold dispatchHandlers
  rw [foldl_dispatchStep_skip path reqId args st.handlers (st, [], false) h]
  rfl

/-- dispatch of a path matched only by the last registered entry runs
exactly that entry. -/
lemma dispatchHandlers_last_match (st : HandlerState) (pre : List HEntry)
    (e : HEntry) (path reqId : String) (args : List JsVal)
    (ps : List (String × String))
    (hst : st.handlers = pre ++ [e])
    (hpre : ∀ x ∈ pre, patMatch x.pattern path = none)
    (he : patMatch e.pattern path = some ps) :
    dispatchHandlers st path reqId args
      = ((runHEntry st e reqId ps args).1, [(runHEntry st e reqId ps args).2]) := by
  unfold dispatchHandlers
  rw [hst, List.foldl_append]
  rw [foldl_dispatchStep_skip path reqId args pre (st, [], false) hpre]
  show (if (dispatchStep path reqId args (st, [], false) e).2.2 then _ else _) = _
  simp [dispatchStep, he]

/-! ## C3: no-handler error response -/

/-- C3: an inbound handler-bound request with a path no registered
handler pattern matches produces exactly one response envelope, whose
error header is the no-handler message naming the path, and the
originating invoke (waiting with the base budget 1) rejects with that
error. -/
theorem no_handler_rejects_invoke (st : HandlerState) (path reqId : String)
    (args : List JsVal) (h : ∀ e ∈ st.handlers, patMatch e.pattern path = none) :
    dispatchHandlers st path reqId args
      = (st, [respond reqId path [.errV (noHandlerMsg path)]])
    ∧ respond reqId path [.errV (noHandlerMsg path)]
      = ⟨path, reqId, some (noHandlerMsg path), []⟩
    ∧ onResponseEmit reqId (invokePending IpcCore.maxTry)
        (respond reqId path [.errV (noHandlerMsg path)])
      = .rejected (noHandlerMsg path) := by
  refine ⟨dispatchHandlers_no_match st path reqId args h, rfl, ?_⟩
  simp [respond, onResponseEmit, invokePending, corrStep, IpcCore.maxTry]

/-- C3 witness: on a dispatcher whose only handler is registered for the
pattern "x", the request path "test" matches nothing; the dispatch sends
back the single envelope carrying the error "No handler found for
'test'" and the invoke rejects with it. -/
theorem no_handler_rejects_invoke_witness :
    dispatchHandlers ⟨[⟨"x", false, fun _ _ => .ok .undef⟩]⟩ "test" "r1" []
      = (⟨[⟨"x", false, fun _ _ => .ok .undef⟩]⟩,
         [respond "r1" "test" [.errV (noHandlerMsg "test")]])
    ∧ respond "r1" "test" [.errV (noHandlerMsg "test")]
      = ⟨"test", "r1", some (noHandlerMsg "test"), []⟩
    ∧ onResponseEmit "r1" (invokePending IpcCore.maxTry)
        (respond "r1" "test" [.errV (noHandlerMsg "test")])
      = .rejected (noHandlerMsg "test") :=
  no_handler_rejects_invoke ⟨[⟨"x", false, fun _ _ => .ok .undef⟩]⟩ "test" "r1" []
    (by
      intro e he
      simp at he
      rw [he]
      decide)

/-! ## C4: duplicate handler registration -/

/-- the registered patterns of the appended entry list contain the new
pattern, so a second registration trips the duplicate check. -/
lemma any_pattern_append (hs : List HEntry) (e : HEntry) :
    ((hs ++ [e]).any fun x => x.pattern = e.pattern) = true := by
  rw [List.any_eq_true]
  exact ⟨e, List.mem_append_right _ (List.mem_cons_self _ _), by simp⟩

/-- a pattern registered by nobody fails the duplicate check. -/
lemma any_pattern_absent (hs : List HEntry) (P : String)
    (h0 : ∀ e ∈ hs, e.pattern ≠ P) :
    (hs.any fun x => x.pattern = P) = false := by
  rw [Bool.eq_false_iff]
  intro hc
  rw [List.any_eq_true] at hc
  obtain ⟨x, hx, hxp⟩ := hc
  exact h0 x hx (by simpa using hxp)

/-- C4: a first handle(P, fn) on a dispatcher not registering P succeeds;
a second handle(P, fn2) on the same dispatcher throws the
duplicate-handler error synchronously at registration time and returns
the registry unchanged; fn remains the registered handler and answers a
subsequent invoke whose path matches P. -/
theorem duplicate_handle_rejected (hs : List HEntry) (P q reqId : String)
    (fn fn2 : List (String × String) → List JsVal → Except String JsVal)
    (ps : List (String × String)) (args : List JsVal) (v : JsVal)
    (h0 : ∀ e ∈ hs, e.pattern ≠ P)
    (h1 : ∀ e ∈ hs, patMatch e.pattern q = none)
    (h2 : patMatch P q = some ps)
    (h3 : fn ps args = .ok v)
    (h4 : v.isError = false) :
    handle ⟨hs⟩ P fn = (⟨hs ++ [⟨P, false, fn⟩]⟩, none)
    ∧ handle ⟨hs ++ [⟨P, false, fn⟩]⟩ P fn2
      = (⟨hs ++ [⟨P, false, fn⟩]⟩, some (dupHandlerMsg P))
    ∧ dispatchHandlers ⟨hs ++ [⟨P, false, fn⟩]⟩ q reqId args
      = (⟨hs ++ [⟨P, false, fn⟩]⟩, [respond reqId P [v]])
    ∧ onResponseEmit reqId (invokePending IpcCore.maxTry) (respond reqId P [v])
      = .resolved v := by
  refine ⟨?_, ?_, ?_, ?_⟩
  · simp [handle, handleCore, any_pattern_absent hs P h0]
  · simp [handle, handleCore, any_pattern_append hs ⟨P, false, fn⟩]
  · have hstep := dispatchHandlers_last_match
      (⟨hs ++ [(⟨P, false, fn⟩ : HEntry)]⟩ : HandlerState) hs
      (⟨P, false, fn⟩ : HEntry) q reqId args ps rfl h1 h2
    rw [hstep]
    simp [runHEntry, h3]
  · cases v <;> simp_all [respond, onResponseEmit, invokePending, corrStep,
      IpcCore.maxTry, JsVal.isError]

/-- C4 witness: registering a handler for pattern "t" twice on the same
dispatcher fails with the duplicate message and leaves the first handler
registered, which still answers an invoke for path "t". -/
theorem duplicate_handle_rejected_witness :
    handle (HandlerState.mk []) "t" (fun _ _ => .ok (.str "world"))
      = (HandlerState.mk [HEntry.mk "t" false (fun _ _ => .ok (.str "world"))], none)
    ∧ handle (HandlerState.mk [HEntry.mk "t" false (fun _ _ => .ok (.str "world"))]) "t"
        (fun _ _ => .ok (.str "other"))
      = (HandlerState.mk [HEntry.mk "t" false (fun _ _ => .ok (.str "world"))],
         some (dupHandlerMsg "t"))
    ∧ dispatchHandlers
        (HandlerState.mk [HEntry.mk "t" false (fun _ _ => .ok (.str "world"))]) "t" "r1" []
      = (HandlerState.mk [HEntry.mk "t" false (fun _ _ => .ok (.str "world"))],
         [respond "r1" "t" [.str "world"]])
    ∧ onResponseEmit "r1" (invokePending IpcCore.maxTry)
        (respond "r1" "t" [.str "world"])
      = .resolved (.str "world") :=
  duplicate_handle_rejected [] "t" "t" "r1"
    (fun _ _ => .ok (.str "world")) (fun _ _ => .ok (.str "other"))
    [] [] (.str "world")
    (by simp) (by simp) (by decide) rfl rfl

/-! ## C5: handleOnce fires at most once -/

/-- removing the pattern of the appended entry returns the previous
registry when that pattern was not registered before. -/
lemma removeHandler_append (hs : List HEntry) (P : String) (isOnce : Bool)
    (fn : List (String × String) → List JsVal → Except String JsVal)
    (h0 : ∀ e ∈ hs, e.pattern ≠ P) :
    removeHandler ⟨hs ++ [⟨P, isOnce, fn⟩]⟩ P = ⟨hs⟩ := by
  unfold removeHandler
  congr 1
  show (hs ++ [(⟨P, isOnce, fn⟩ : HEntry)]).filter (fun e => e.pattern != P) = hs
  rw [List.filter_append]
  have h1 : hs.filter (fun e => e.pattern != P) = hs := by
    apply List.filter_eq_self.mpr
    intro e he
    simpa using h0 e he
  have h2 : ([(⟨P, isOnce, fn⟩ : HEntry)]).filter (fun e => e.pattern != P) = [] := by
    simp
  rw [h1, h2, List.append_nil]

/-- C5: after handleOnce(P, fn) on a dispatcher not registering P and
with no other pattern matching the request path, the first matching
request removes the registration first — the registry the wrapper leaves
behind while fn runs is already the one without P — and resolves the
invoke via fn; a second request then finds no handler and its invoke
rejects with the no-handler error. -/
theorem handleonce_fires_at_most_once (hs : List HEntry) (P q r1 r2 : String)
    (fn : List (String × String) → List JsVal → Except String JsVal)
    (ps : List (String × String)) (args args2 : List JsVal) (v : JsVal)
    (h0 : ∀ e ∈ hs, e.pattern ≠ P)
    (h1 : ∀ e ∈ hs, patMatch e.pattern q = none)
    (h2 : patMatch P q = some ps)
    (h3 : fn ps args = .ok v)
    (h4 : v.isError = false) :
    handleOnce ⟨hs⟩ P fn = (⟨hs ++ [⟨P, true, fn⟩]⟩, none)
    ∧ dispatchHandlers ⟨hs ++ [⟨P, true, fn⟩]⟩ q r1 args
      = (⟨hs⟩, [respond r1 P [v]])
    ∧ onResponseEmit r1 (invokePending IpcCore.maxTry) (respond r1 P [v])
      = .resolved v
    ∧ dispatchHandlers ⟨hs⟩ q r2 args2
      = (⟨hs⟩, [respond r2 q [.errV (noHandlerMsg q)]])
    ∧ onResponseEmit r2 (invokePending IpcCore.maxTry)
        (respond r2 q [.errV (noHandlerMsg q)])
      = .rejected (noHandlerMsg q) := by
  refine ⟨?_, ?_, ?_, ?_, ?_⟩
  · simp [handleOnce, handleCore, any_pattern_absent hs P h0]
  · have hstep := dispatchHandlers_last_match
      (⟨hs ++ [(⟨P, true, fn⟩ : HEntry)]⟩ : HandlerState) hs
      (⟨P, true, fn⟩ : HEntry) q r1 args ps rfl h1 h2
    rw [hstep]
    simp [runHEntry, h3, removeHandler_append hs P true fn h0]
  · cases v <;> simp_all [respond, onResponseEmit, invokePending, corrStep,
      IpcCore.maxTry, JsVal.isError]
  · exact dispatchHandlers_no_match ⟨hs⟩ q r2 args2 h1
  · simp [respond, onResponseEmit, invokePending, corrStep, IpcCore.maxTry]

/-- C5 witness: handleOnce for pattern "t" answers the first invoke for
path "t" with the handler value and leaves the registry empty, so the
second invoke rejects with the no-handler error. -/
theorem handleonce_fires_at_most_once_witness :
    handleOnce (HandlerState.mk []) "t" (fun _ _ => .ok (.str "world"))
      = (HandlerState.mk [HEntry.mk "t" true (fun _ _ => .ok (.str "world"))], none)
    ∧ dispatchHandlers
        (HandlerState.mk [HEntry.mk "t" true (fun _ _ => .ok (.str "world"))]) "t" "r1" []
      = (HandlerState.mk [], [respond "r1" "t" [.str "world"]])
    ∧ onResponseEmit "r1" (invokePending IpcCore.maxTry)
        (respond "r1" "t" [.str "world"])
      = .resolved (.str "world")
    ∧ dispatchHandlers (HandlerState.mk []) "t" "r2" []
      = (HandlerState.mk [], [respond "r2" "t" [.errV (noHandlerMsg "t")]])
    ∧ onResponseEmit "r2" (invokePending IpcCore.maxTry)
        (respond "r2" "t" [.errV (noHandlerMsg "t")])
      = .rejected (noHandlerMsg "t") :=
  handleonce_fires_at_most_once [] "t" "t" "r1" "r2"
    (fun _ _ => .ok (.str "world")) [] [] [] (.str "world")
    (by simp) (by simp) (by decide) rfl rfl

/-! ## C7: parameter extraction -/

/-- C7: pattern "a/:id1/:id2" against path "a/x/7" extracts exactly
id1 = "x" and id2 = "7"; pattern "a/:id1/:id2?" against "a/x" extracts
id1 = "x" with the key id2 absent from the mapping (not bound to an
empty string or null); a matching pattern with no named parameters
extracts the empty mapping. -/
theorem params_extraction :
    patMatch "a/:id1/:id2" "a/x/7" = some [("id1", "x"), ("id2", "7")]
    ∧ patMatch "a/:id1/:id2?" "a/x" = some [("id1", "x")]
    ∧ ((patMatch "a/:id1/:id2?" "a/x").getD []).lookup "id2" = none
    ∧ ((patMatch "a/:id1/:id2?" "a/x").getD []).lookup "id1" = some "x"
    ∧ patMatch "a/b" "a/b" = some [] := by
  decide

/-! ## C10: once registers only on the emitter -/

/-- C10: `once` does not touch the matching registry `eventList`; a
dispatcher on which listeners were registered only through `once` fires
no listener for any inbound envelope, whatever its path; dispatch emits
only for patterns present in `eventList`; and a `once` listener does
fire when some listener was also registered via `on` under the exact
same pattern string (both the earlier `on` listener and the `once`
listener run). -/
theorem once_without_on_never_fires :
    (∀ (st : ListState) (p : String) (id : Nat),
      (ipcOnce st p id).eventList = st.eventList)
    ∧ (∀ (regs : List (String × Nat)) (path : String),
      onRequestFired
        (regs.foldl (fun s pr => ipcOnce s pr.1 pr.2) (ListState.mk [] [])) path = [])
    ∧ (∀ (st : ListState) (path : String) (id : Nat),
      id ∈ onRequestFired st path →
        ∃ e ∈ st.eventList, patTest e.pattern path = true ∧ id ∈ emitFired st e.pattern)
    ∧ (∀ (p : String) (id1 id2 : Nat) (path : String), patTest p path = true →
      onRequestFired (ipcOnce (ipcOn (ListState.mk [] []) p id1) p id2) path
        = [id1, id2]) := by
  refine ⟨fun st p id => rfl, ?_, ?_, ?_⟩
  · intro regs path
    have hev : ∀ (l : List (String × Nat)) (s : ListState),
        (l.foldl (fun s pr => ipcOnce s pr.1 pr.2) s).eventList = s.eventList := by
      intro l
      induction l with
      | nil => intro s; rfl
      | cons pr rest ih => intro s; exact ih (ipcOnce s pr.1 pr.2)
    unfold onRequestFired
    rw [hev regs (ListState.mk [] [])]
    rfl
  · intro st path id hid
    unfold onRequestFired at hid
    rw [List.mem_flatten] at hid
    obtain ⟨l, hl, hidl⟩ := hid
    rw [List.mem_map] at hl
    obtain ⟨e, he, rfl⟩ := hl
    rw [List.mem_filter] at he
    exact ⟨e, he.1, he.2, hidl⟩
  · intro p id1 id2 path h
    simp [ipcOn, ipcOnce, onRequestFired, emitFired, h]

/-- C10 witness: on a dispatcher where pattern "t" carries one `on`
listener and one `once` listener, an envelope with path "t" fires both,
in order. -/
theorem once_without_on_never_fires_witness :
    patTest "t" "t" = true
    ∧ onRequestFired (ipcOnce (ipcOn (ListState.mk [] []) "t" 1) "t" 2) "t" = [1, 2] :=
  ⟨by decide,
    once_without_on_never_fires.2.2.2 "t" 1 2 "t" (by decide)⟩

/-! ## C8: bulk removal through a prefixed view -/

/-- C8 counterexample: the claim says removeAll() on a view removes
exactly the registrations visible through its eventNames() at call time.
Under the view with prefix "a", the root registration "ab/x" is visible
— eventNames() filters with startsWith("a") without requiring a
separator, so it lists "b/x" — yet removeAll() rewrites "b/x" back to
"a/b/x" through join and removes nothing: "ab/x" stays registered even
though it was visible. -/
theorem view_removeall_misses_visible :
    viewVisibleNames "a" ["ab/x"] = ["b/x"]
    ∧ viewRemoveAllNames "a" ["ab/x"] = some ["ab/x"] := by
  decide

/-- removing a list of exact names one by one filters out exactly the
names equal to one of them. -/
lemma foldl_rootRemoveName (g : String → String) :
    ∀ (l : List String) (names : List String),
      l.foldl (fun acc e => rootRemoveName acc (g e)) names
        = names.filter (fun n => l.all (fun e => n != g e)) := by
  intro l
  induction l with
  | nil => intro names; simp
  | cons e es ih =>
    intro names
    show es.foldl (fun acc x => rootRemoveName acc (g x)) (rootRemoveName names (g e))
      = names.filter (fun n => (e :: es).all (fun x => n != g x))
    rw [ih (rootRemoveName names (g e))]
    unfold rootRemoveName
    rw [List.filter_filter]
    apply List.filter_congr
    intro x hx
    simp [List.all_cons, Bool.and_comm]

/-- C8 amended: removeAll() on a view with a nonempty normalized prefix
(and no visible name stripping to the empty string, which would make the
call recurse forever) removes exactly the root registrations equal to
the re-join of some visible stripped name — that is, names of the form
prefix, separator, normalized rest; a visible name that the strip and
re-join round trip does not reproduce (such as "ab/x" under prefix "a")
survives although it was visible, and every registration whose name does
not start with the prefix is untouched. -/
theorem view_removeall_removes_rejoined (prefixPath : String) (names : List String)
    (hp : prefixPath ≠ "")
    (h1 : prefixPath.data.head? ≠ some '/')
    (h2 : prefixPath.data.getLast? ≠ some '/')
    (hne : (viewVisibleNames prefixPath names).contains "" = false) :
    viewRemoveAllNames prefixPath names
      = some (names.filter (fun n =>
          (viewVisibleNames prefixPath names).all
            (fun e => n != joinParts prefixPath [e])))
    ∧ ∀ n ∈ names, jsStartsWith n prefixPath = false →
        n ∈ names.filter (fun n =>
          (viewVisibleNames prefixPath names).all
            (fun e => n != joinParts prefixPath [e])) := by
  constructor
  · show (if (viewVisibleNames prefixPath names).contains "" = true then none
      else some ((viewVisibleNames prefixPath names).foldl
        (fun acc e => rootRemoveName acc (joinParts prefixPath [e])) names))
      = some (names.filter (fun n =>
          (viewVisibleNames prefixPath names).all
            (fun e => n != joinParts prefixPath [e])))
    rw [if_neg (by rw [hne]; exact Bool.false_ne_true)]
    rw [foldl_rootRemoveName (fun e => joinParts prefixPath [e])
      (viewVisibleNames prefixPath names) names]
  · intro n hn hns
    rw [List.mem_filter]
    refine ⟨hn, ?_⟩
    rw [List.all_eq_true]
    intro e he
    have hneq : n ≠ joinParts prefixPath [e] := by
      intro heq
      have hjoin : joinParts prefixPath [e] = prefixPath ++ "/" ++ stripSlashes e :=
        joinParts_single prefixPath e hp h1 h2
      have hsw : jsStartsWith (prefixPath ++ "/" ++ stripSlashes e) prefixPath = true := by
        unfold jsStartsWith
        rw [List.isPrefixOf_iff_prefix]
        rw [String.data_append, String.data_append, List.append_assoc]
        exact List.prefix_append _ _
      rw [heq, hjoin] at hns
      exact Bool.false_ne_true (hns.symm.trans hsw)
    simpa using hneq

/-- C8 amended witness: under the view with prefix "a", removeAll()
keeps the sibling "b/y" (different prefix) and also keeps "ab/z", which
was visible but is not reproduced by the strip and re-join round trip;
only "a/x" is removed. -/
theorem view_removeall_removes_rejoined_witness :
    (viewRemoveAllNames "a" ["a/x", "b/y", "ab/z"]
      = some ((["a/x", "b/y", "ab/z"]).filter (fun n =>
          (viewVisibleNames "a" ["a/x", "b/y", "ab/z"]).all
            (fun e => n != joinParts "a" [e])))
    ∧ ∀ n ∈ ["a/x", "b/y", "ab/z"], jsStartsWith n "a" = false →
        n ∈ (["a/x", "b/y", "ab/z"]).filter (fun n =>
          (viewVisibleNames "a" ["a/x", "b/y", "ab/z"]).all
            (fun e => n != joinParts "a" [e])))
    ∧ viewRemoveAllNames "a" ["a/x", "b/y", "ab/z"] = some ["b/y", "ab/z"] :=
  ⟨view_removeall_removes_rejoined "a" ["a/x", "b/y", "ab/z"]
    (by decide) (by decide) (by decide) (by decide), by decide⟩
